import Mathlib

/-!
Verification development for the pleco TTL reaper (src/providers/aws/elb.go:
the `aws` ELB half and the `vpc` half of the file).

The provider (AWS) is an opaque collaborator: a session value records the
responses the provider would give to each call.  Provider delete calls are
the observable behaviour of interest, so the deletion functions return the
trace of delete calls they issue, in order, alongside the value the Go
function returns.  Machine integers (`int64`) are modelled as `Int` with the
`int64` range check where the source (strconv.Atoi) performs one; `time.Time`
values are modelled as `Int` (Unix seconds).
-/

namespace Pleco

/-- A provider tag: key/value pair (elbv2.Tag / ec2.Tag with both fields set). -/
structure Tag where
  key : String
  value : String
deriving DecidableEq, Repr

/-- ASCII lowering of one character, for the `strings.EqualFold` model. -/
def asciiLower (c : Char) : Char :=
  if 'A' ≤ c ∧ c ≤ 'Z' then Char.ofNat (c.toNat + 32) else c

/-- Model of Go `strings.EqualFold` restricted to ASCII case folding (the
tag keys compared in the source are ASCII). -/
def equalFold (a b : String) : Bool :=
  a.data.map asciiLower == b.data.map asciiLower

/-- Value of a decimal digit character, `none` for any other character. -/
def digitVal (c : Char) : Option Nat :=
  if '0' ≤ c ∧ c ≤ '9' then some (c.toNat - '0'.toNat) else none

/-- Accumulating decimal parse of a character list; fails on any non-digit. -/
def parseDigits : List Char → Nat → Option Nat
  | [], acc => some acc
  | c :: cs, acc =>
    match digitVal c with
    | none => none
    | some d => parseDigits cs (acc * 10 + d)

def int64Max : Int := 9223372036854775807

def int64Min : Int := -9223372036854775808

/-- Model of Go `strconv.Atoi` on a 64-bit platform: optional sign, at least
one digit, all characters digits, result within the `int64` range. -/
def atoi (s : String) : Option Int :=
  let fromDigits (l : List Char) (neg : Bool) : Option Int :=
    match parseDigits l 0 with
    | none => none
    | some n =>
      let v : Int := if neg then -(n : Int) else (n : Int)
      if int64Min ≤ v ∧ v ≤ int64Max then some v else none
  match s.data with
  | [] => none
  | '-' :: rest => if rest.isEmpty then none else fromDigits rest true
  | '+' :: rest => if rest.isEmpty then none else fromDigits rest false
  | l => fromDigits l false

/-- Modelled from the spec: `utils.CheckIfExpired`, the Expiration Evaluator,
is not under src/ (only its caller is).  Contract per the spec: `false`
whenever `ttl < 0` (no TTL recorded never auto-expires); otherwise `true`
iff `now >= createdAt + ttl`.  The source reads the clock internally; here
`now` is an explicit argument. -/
def CheckIfExpired (createdAt ttl now : Int) : Bool :=
  if ttl < 0 then false else decide (createdAt + ttl ≤ now)

/-! ## ELB half (package aws) -/

/-- One entry of the provider's DescribeLoadBalancers response
(elbv2.LoadBalancer, the fields the source reads). -/
structure LbDesc where
  loadBalancerArn : String
  loadBalancerName : String
  createdTime : Int
  stateCode : String
deriving DecidableEq, Repr

/-- The source's ElasticLoadBalancer record. -/
structure ElasticLoadBalancer where
  arn : String
  name : String
  createdTime : Int
  status : String
  ttl : Int
deriving DecidableEq, Repr

/-- The ELBV2 session, as the responses the provider gives to each call the
source makes: the listing, per-ARN tag description, and per-ARN delete
outcome. -/
structure ElbSession where
  describeLoadBalancers : Except String (List LbDesc)
  describeTags : String → Except String (List Tag)
  deleteLoadBalancer : String → Except String Unit

/-- The record ListLoadBalancers builds per described load balancer, with
TTL initialised to the sentinel -1. -/
def lbOfDesc (lb : LbDesc) : ElasticLoadBalancer :=
  { arn := lb.loadBalancerArn, name := lb.loadBalancerName,
    createdTime := lb.createdTime, status := lb.stateCode, ttl := -1 }

/-- ListLoadBalancers: propagate a listing error; otherwise build one record
per described load balancer.  (The source's `len == 0` early return yields
nil, which equals the empty map result.) -/
def ListLoadBalancers (s : ElbSession) : Except String (List ElasticLoadBalancer) :=
  match s.describeLoadBalancers with
  | .error e => .error e
  | .ok lbs => .ok (lbs.map lbOfDesc)

/-- Inner tag loop of listTaggedLoadBalancers: a tag contributes the load
balancer (with TTL decoded from the tag value) when its value equals
`tagName` and parses as an integer; a bad value is logged and skipped. -/
def lbTagEntries (tagName : String) (lb : ElasticLoadBalancer) (tags : List Tag) :
    List ElasticLoadBalancer :=
  tags.flatMap (fun t =>
    if t.value = tagName then
      match atoi t.value with
      | none => []
      | some ttl => [{ lb with ttl := ttl }]
    else [])

/-- listTaggedLoadBalancers: a listing error is fatal; a per-load-balancer
DescribeTags error is logged and that load balancer is skipped. -/
def listTaggedLoadBalancers (s : ElbSession) (tagName : String) :
    Except String (List ElasticLoadBalancer) :=
  match ListLoadBalancers s with
  | .error _ => .error "Error while getting loadbalancer list"
  | .ok allLoadBalancers =>
    .ok (allLoadBalancers.flatMap (fun lb =>
      match s.describeTags lb.arn with
      | .error _ => []
      | .ok tags => lbTagEntries tagName lb tags))

/-- Loop body of deleteLoadBalancers: issue a DeleteLoadBalancer call per
member; a call error is returned immediately, ending the loop.  First
component: the ARNs of the delete calls actually issued, in order. -/
def deleteLoadBalancersLoop (s : ElbSession) :
    List ElasticLoadBalancer → List String × Except String Unit
  | [] => ([], .ok ())
  | lb :: rest =>
    match s.deleteLoadBalancer lb.arn with
    | .error e => ([lb.arn], .error e)
    | .ok _ =>
      let r := deleteLoadBalancersLoop s rest
      (lb.arn :: r.1, r.2)

/-- deleteLoadBalancers: dry-run and empty-list short circuits, then the
delete loop. -/
def deleteLoadBalancers (s : ElbSession) (loadBalancersList : List ElasticLoadBalancer)
    (dryRun : Bool) : List String × Except String Unit :=
  if dryRun then ([], .ok ())
  else if loadBalancersList = [] then ([], .ok ())
  else deleteLoadBalancersLoop s loadBalancersList

/-- DeleteExpiredLoadBalancers: list tagged load balancers (listing error is
fatal); for each expired one, call deleteLoadBalancers on the WHOLE list
(as the source does), logging a delete error and continuing.  Returns the
concatenated delete-call trace and the function's return value. -/
def DeleteExpiredLoadBalancers (s : ElbSession) (tagName : String) (dryRun : Bool)
    (now : Int) : List String × Except String Unit :=
  match listTaggedLoadBalancers s tagName with
  | .error e => ([], .error ("can't list Load Balancers: " ++ e))
  | .ok lbs =>
    (lbs.flatMap (fun lb =>
      if CheckIfExpired lb.createdTime lb.ttl now then
        (deleteLoadBalancers s lbs dryRun).1
      else []),
     .ok ())

/-! ## VPC half (package vpc) -/

/-- One entry of the provider's DescribeVpcs response (ec2.Vpc, the fields
the source reads). -/
structure Ec2Vpc where
  vpcId : String
  state : String
  tags : List Tag
deriving DecidableEq, Repr

/-- The source's VpcInfo record.  A Go struct literal that omits fields
zero-initialises them: TTL 0, Tag "", nil collections. -/
structure VpcInfo where
  vpcId : String
  securityGroups : List String
  internetGateways : List String
  subnets : List String
  routeTables : List String
  status : String
  ttl : Int
  tag : String
deriving DecidableEq, Repr

/-- The EC2 session: the DescribeVpcs response as a function of the tag-key
filter value, and the sub-resource ids the resolver queries obtain per VPC
id (a failed category query is modelled as yielding the empty collection,
per the spec's failure policy). -/
structure Ec2Session where
  describeVpcs : String → Except String (List Ec2Vpc)
  securityGroupsOf : String → List String
  internetGatewaysOf : String → List String
  subnetsOf : String → List String
  routeTablesOf : String → List String

/-- getVPCs: on a DescribeVpcs error the source logs the error and returns
nil (no error value!); an empty result is also nil. -/
def getVPCs (s : Ec2Session) (tagName : String) : List Ec2Vpc :=
  match s.describeVpcs tagName with
  | .error _ => []
  | .ok vpcs => if vpcs.isEmpty then [] else vpcs

/-- Modelled from the spec: the Sub-resource Resolver's four queries
(SetSecurityGroupsIdsByVpcId, SetInternetGatewaysIdsByVpcId,
SetSubnetsIdsByVpcId, SetRouteTablesIdsByVpcId are not under src/).  Four
concurrent tasks write four disjoint fields of the record and are joined
before return; since no field is written by more than one task the result
is deterministic and is embedded as four field updates. -/
def getCompleteVpc (s : Ec2Session) (vpc : VpcInfo) : VpcInfo :=
  { vpc with
    securityGroups := s.securityGroupsOf vpc.vpcId,
    internetGateways := s.internetGatewaysOf vpc.vpcId,
    subnets := s.subnetsOf vpc.vpcId,
    routeTables := s.routeTablesOf vpc.vpcId }

/-- First statement of the tag-loop body: a tag whose key is case-equal to
"ttl" sets the record's TTL when its value parses as an integer; a parse
failure is logged and leaves the TTL unchanged. -/
def ttlStep (tag : Tag) (taggedVpc : VpcInfo) : VpcInfo :=
  if equalFold tag.key "ttl" then
    match atoi tag.value with
    | none => taggedVpc
    | some ttl => { taggedVpc with ttl := ttl }
  else taggedVpc

/-- Second statement of the tag-loop body, non-empty-key case: a tag whose
key equals `tagName` copies its value into the record's Tag field. -/
def tagStep (tagName : String) (tag : Tag) (taggedVpc : VpcInfo) : VpcInfo :=
  if tag.key = tagName then { taggedVpc with tag := tag.value } else taggedVpc

/-- Record produced by one non-skipped iteration of the tag loop: the TTL
statement, the Tag-field statement, then completion with sub-resources. -/
def tagIterRecord (s : Ec2Session) (tagName : String) (tag : Tag) (taggedVpc : VpcInfo) :
    VpcInfo :=
  getCompleteVpc s (tagStep tagName tag (ttlStep tag taggedVpc))

/-- Tag loop of listTaggedVPC, carrying the mutable `taggedVpc` record
across iterations as the source does.  Per tag: the TTL statement, then —
unless the key equals `tagName` and is empty, which is warned about and
skipped with `continue` — the Tag-field statement, completion of the
record with sub-resources, and the append.  Note that the
resolve-and-append runs once per (non-skipped) tag. -/
def processTags (s : Ec2Session) (tagName : String) :
    List Tag → VpcInfo → List VpcInfo
  | [], _ => []
  | tag :: rest, taggedVpc =>
    if tag.key = tagName ∧ tag.key = "" then
      processTags s tagName rest (ttlStep tag taggedVpc)
    else
      tagIterRecord s tagName tag taggedVpc ::
        processTags s tagName rest (tagIterRecord s tagName tag taggedVpc)

/-- The record listTaggedVPC builds for a discovered VPC before the tag
loop: the Go struct literal sets only VpcId and Status, zero-initialising
TTL to 0, Tag to "" and the collections to nil. -/
def initVpcInfo (vpc : Ec2Vpc) : VpcInfo :=
  { vpcId := vpc.vpcId, securityGroups := [], internetGateways := [],
    subnets := [], routeTables := [], status := vpc.state, ttl := 0, tag := "" }

/-- Per-VPC body of listTaggedVPC's outer loop: build the record, drop the
VPC unless its state is exactly "available" and it has at least one tag,
then run the tag loop. -/
def vpcEntries (s : Ec2Session) (tagName : String) (vpc : Ec2Vpc) : List VpcInfo :=
  if vpc.state ≠ "available" then []
  else if vpc.tags = [] then []
  else processTags s tagName vpc.tags (initVpcInfo vpc)

/-- listTaggedVPC: the source's error result is always nil (getVPCs swallows
the provider error), modelled by the always-`none` second component. -/
def listTaggedVPC (s : Ec2Session) (tagName : String) : List VpcInfo × Option String :=
  ((getVPCs s tagName).flatMap (vpcEntries s tagName), none)

/-- One provider delete call recorded in a deletion trace, tagged by the
resource category it targets. -/
inductive DelCall where
  | sg (id : String)
  | igw (id : String)
  | subnet (id : String)
  | rtb (id : String)
  | vpc (id : String)
deriving DecidableEq, Repr

/-- Modelled from the spec: DeleteSecurityGroupsByIds is not under src/.
Each category member gets one delete call; a member failure is logged and
siblings continue, so the call trace is one call per member in order. -/
def DeleteSecurityGroupsByIds (sgs : List String) : List DelCall :=
  sgs.map DelCall.sg

/-- Modelled from the spec: DeleteInternetGatewaysByIds is not under src/.
One delete call per member; failures are logged, siblings continue. -/
def DeleteInternetGatewaysByIds (igws : List String) : List DelCall :=
  igws.map DelCall.igw

/-- Modelled from the spec: DeleteSubnetsByIds is not under src/.  One
delete call per member; failures are logged, siblings continue. -/
def DeleteSubnetsByIds (subnets : List String) : List DelCall :=
  subnets.map DelCall.subnet

/-- Modelled from the spec: DeleteRouteTablesByIds is not under src/.  One
delete call per member; failures are logged, siblings continue. -/
def DeleteRouteTablesByIds (rtbs : List String) : List DelCall :=
  rtbs.map DelCall.rtb

/-- Per-VPC body of deleteVPC's loop: the four category deletions in the
source's fixed order, then the DeleteVpc call for the container (whose
error the source only logs as a warning before continuing). -/
def vpcSegment (vpc : VpcInfo) : List DelCall :=
  DeleteSecurityGroupsByIds vpc.securityGroups ++
  (DeleteInternetGatewaysByIds vpc.internetGateways ++
  (DeleteSubnetsByIds vpc.subnets ++
  (DeleteRouteTablesByIds vpc.routeTables ++
  [DelCall.vpc vpc.vpcId])))

/-- deleteVPC: dry-run and empty-list short circuits; then the per-VPC loop,
followed by the source's extra DeleteVpc call on VpcList[0] after the loop
(its error branch only logs — via a possibly out-of-range VpcList[1] index
— so it does not alter the call trace, which is what is modelled).  The
ec2 session argument of the source is used only to issue the calls and for
the diagnostic region, so it does not appear here. -/
def deleteVPC (vpcList : List VpcInfo) (dryRun : Bool) : List DelCall :=
  if dryRun then []
  else
    match vpcList with
    | [] => []
    | v0 :: _ => vpcList.flatMap vpcSegment ++ [DelCall.vpc v0.vpcId]

/-- DeleteExpiredVPC: list the tagged VPCs, propagate a listing error (a
dead branch, since listTaggedVPC never reports one), then hand the WHOLE
list to deleteVPC — no expiration check occurs — and return nil. -/
def DeleteExpiredVPC (s : Ec2Session) (tagName : String) (dryRun : Bool) :
    List DelCall × Except String Unit :=
  let r := listTaggedVPC s tagName
  match r.2 with
  | some e => ([], .error ("can't list VPC: " ++ e))
  | none => (deleteVPC r.1 dryRun, .ok ())

/-! ## Concrete provider fixtures used in counterexamples and witnesses -/

/-- An available VPC carrying a ttl tag far from expiring. -/
def unexpiredVpc : Ec2Vpc :=
  { vpcId := "vpc-1", state := "available", tags := [{ key := "ttl", value := "999999" }] }

/-- Session whose listing returns exactly `unexpiredVpc`. -/
def unexpiredVpcSession : Ec2Session :=
  { describeVpcs := fun _ => .ok [unexpiredVpc],
    securityGroupsOf := fun _ => [],
    internetGatewaysOf := fun _ => [],
    subnetsOf := fun _ => [],
    routeTablesOf := fun _ => [] }

/-- Session whose VPC listing fails with a communication error. -/
def listFailureSession : Ec2Session :=
  { describeVpcs := fun _ => .error "connection refused",
    securityGroupsOf := fun _ => [],
    internetGatewaysOf := fun _ => [],
    subnetsOf := fun _ => [],
    routeTablesOf := fun _ => [] }

/-- An available VPC whose ttl tag value is not a number. -/
def badTtlVpc : Ec2Vpc :=
  { vpcId := "vpc-5", state := "available", tags := [{ key := "ttl", value := "abc" }] }

/-- Session whose listing returns exactly `badTtlVpc`, owning one security
group. -/
def badTtlVpcSession : Ec2Session :=
  { describeVpcs := fun _ => .ok [badTtlVpc],
    securityGroupsOf := fun _ => ["sg-1"],
    internetGatewaysOf := fun _ => [],
    subnetsOf := fun _ => [],
    routeTablesOf := fun _ => [] }

/-- An available VPC with a marker tag but no ttl tag. -/
def noTtlVpc : Ec2Vpc :=
  { vpcId := "vpc-9", state := "available", tags := [{ key := "env", value := "prod" }] }

/-- Session whose listing returns exactly `noTtlVpc`. -/
def noTtlVpcSession : Ec2Session :=
  { describeVpcs := fun _ => .ok [noTtlVpc],
    securityGroupsOf := fun _ => [],
    internetGatewaysOf := fun _ => [],
    subnetsOf := fun _ => [],
    routeTablesOf := fun _ => [] }

/-- The VpcInfo record that discovery builds for `noTtlVpc`. -/
def noTtlEntry : VpcInfo :=
  { vpcId := "vpc-9", securityGroups := [], internetGateways := [], subnets := [],
    routeTables := [], status := "available", ttl := 0, tag := "prod" }

/-- An available VPC whose single tag has an empty key. -/
def emptyKeyVpc : Ec2Vpc :=
  { vpcId := "vpc-10", state := "available", tags := [{ key := "", value := "x" }] }

/-- Session whose listing returns exactly `emptyKeyVpc`. -/
def emptyKeyVpcSession : Ec2Session :=
  { describeVpcs := fun _ => .ok [emptyKeyVpc],
    securityGroupsOf := fun _ => [],
    internetGatewaysOf := fun _ => [],
    subnetsOf := fun _ => [],
    routeTablesOf := fun _ => [] }

/-- Two load balancers for batch-deletion scenarios. -/
def lbA : ElasticLoadBalancer :=
  { arn := "arn-a", name := "lb-a", createdTime := 0, status := "active", ttl := 60 }

def lbB : ElasticLoadBalancer :=
  { arn := "arn-b", name := "lb-b", createdTime := 0, status := "active", ttl := 60 }

/-- ELB session whose DeleteLoadBalancer call fails for `lbA` only. -/
def elbFailSession : ElbSession :=
  { describeLoadBalancers := .ok [],
    describeTags := fun _ => .ok [],
    deleteLoadBalancer := fun arn => if arn = "arn-a" then .error "boom" else .ok () }

/-- A provider-side load-balancer description for listing scenarios. -/
def lbDescW : LbDesc :=
  { loadBalancerArn := "arn-w", loadBalancerName := "lb-w", createdTime := 0,
    stateCode := "active" }

/-- ELB session whose listing returns exactly `lbDescW` and whose other
calls succeed. -/
def elbOkSession : ElbSession :=
  { describeLoadBalancers := .ok [lbDescW],
    describeTags := fun _ => .ok [],
    deleteLoadBalancer := fun _ => .ok () }

/-- A load balancer whose delete call fails under `elbFailCSession`. -/
def lbC : ElasticLoadBalancer :=
  { arn := "arn-c", name := "lb-c", createdTime := 0, status := "active", ttl := 60 }

/-- ELB session whose DeleteLoadBalancer call fails for `lbC`. -/
def elbFailCSession : ElbSession :=
  { describeLoadBalancers := .ok [],
    describeTags := fun _ => .ok [],
    deleteLoadBalancer := fun arn => if arn = "arn-c" then .error "down" else .ok () }

/-- An available VPC with two tags (a ttl tag and a marker tag). -/
def twoTagVpc : Ec2Vpc :=
  { vpcId := "vpc-7", state := "available",
    tags := [{ key := "ttl", value := "60" }, { key := "env", value := "prod" }] }

/-- Session whose listing returns exactly `twoTagVpc`. -/
def twoTagVpcSession : Ec2Session :=
  { describeVpcs := fun _ => .ok [twoTagVpc],
    securityGroupsOf := fun _ => [],
    internetGatewaysOf := fun _ => [],
    subnetsOf := fun _ => [],
    routeTablesOf := fun _ => [] }

/-- A fully populated container record for deletion-order scenarios. -/
def vFull : VpcInfo :=
  { vpcId := "vpc-4", securityGroups := ["sg-a", "sg-b"], internetGateways := ["igw-a"],
    subnets := ["sub-a"], routeTables := ["rtb-a"], status := "available", ttl := 60,
    tag := "1" }

/-- A container record with no sub-resources. -/
def vBare : VpcInfo :=
  { vpcId := "vpc-6", securityGroups := [], internetGateways := [], subnets := [],
    routeTables := [], status := "available", ttl := 60, tag := "1" }

/-! ## Deletion-order machinery (claim about the call trace of deleteVPC) -/

/-- Dependency rank of a delete call's category: the source's fixed order
security groups, internet gateways, subnets, route tables, container. -/
def rank : DelCall → Nat
  | .sg _ => 0
  | .igw _ => 1
  | .subnet _ => 2
  | .rtb _ => 3
  | .vpc _ => 4

/-- Whether a delete call targets container `v` or one of the sub-resources
recorded in `v`. -/
def belongsTo (v : VpcInfo) : DelCall → Bool
  | .sg i => decide (i ∈ v.securityGroups)
  | .igw i => decide (i ∈ v.internetGateways)
  | .subnet i => decide (i ∈ v.subnets)
  | .rtb i => decide (i ∈ v.routeTables)
  | .vpc i => decide (i = v.vpcId)

/-- `w` shares none of `v`'s recorded sub-resource ids (category-wise) and
has a different container id. -/
def DisjointFrom (w v : VpcInfo) : Prop :=
  (∀ i ∈ w.securityGroups, i ∉ v.securityGroups) ∧
  (∀ i ∈ w.internetGateways, i ∉ v.internetGateways) ∧
  (∀ i ∈ w.subnets, i ∉ v.subnets) ∧
  (∀ i ∈ w.routeTables, i ∉ v.routeTables) ∧
  w.vpcId ≠ v.vpcId

/-! ## Helper lemmas -/

theorem flatMap_nil_of {α β : Type} {l : List α} {f : α → List β}
    (h : ∀ a ∈ l, f a = []) : l.flatMap f = [] := by
  induction l with
  | nil => rfl
  | cons a l ih =>
    rw [List.flatMap_cons, h a (List.mem_cons_self a l), List.nil_append]
    exact ih fun b hb => h b (List.mem_cons_of_mem a hb)

theorem ttlStep_vpcId (tag : Tag) (tv : VpcInfo) : (ttlStep tag tv).vpcId = tv.vpcId := by
  unfold ttlStep
  split
  · split <;> rfl
  · rfl

theorem ttlStep_status (tag : Tag) (tv : VpcInfo) : (ttlStep tag tv).status = tv.status := by
  unfold ttlStep
  split
  · split <;> rfl
  · rfl

theorem ttlStep_eq_of_unparsable {tag : Tag} (tv : VpcInfo)
    (h : equalFold tag.key "ttl" = true → atoi tag.value = none) :
    ttlStep tag tv = tv := by
  unfold ttlStep
  split
  · next hf => rw [h hf]
  · rfl

theorem tagStep_vpcId (tagName : String) (tag : Tag) (tv : VpcInfo) :
    (tagStep tagName tag tv).vpcId = tv.vpcId := by
  unfold tagStep
  split <;> rfl

theorem tagStep_status (tagName : String) (tag : Tag) (tv : VpcInfo) :
    (tagStep tagName tag tv).status = tv.status := by
  unfold tagStep
  split <;> rfl

theorem tagStep_ttl (tagName : String) (tag : Tag) (tv : VpcInfo) :
    (tagStep tagName tag tv).ttl = tv.ttl := by
  unfold tagStep
  split <;> rfl

theorem getCompleteVpc_vpcId (s : Ec2Session) (tv : VpcInfo) :
    (getCompleteVpc s tv).vpcId = tv.vpcId := rfl

theorem getCompleteVpc_status (s : Ec2Session) (tv : VpcInfo) :
    (getCompleteVpc s tv).status = tv.status := rfl

theorem getCompleteVpc_ttl (s : Ec2Session) (tv : VpcInfo) :
    (getCompleteVpc s tv).ttl = tv.ttl := rfl

theorem tagIterRecord_vpcId (s : Ec2Session) (tagName : String) (tag : Tag) (tv : VpcInfo) :
    (tagIterRecord s tagName tag tv).vpcId = tv.vpcId := by
  unfold tagIterRecord
  rw [getCompleteVpc_vpcId, tagStep_vpcId, ttlStep_vpcId]

theorem tagIterRecord_status (s : Ec2Session) (tagName : String) (tag : Tag) (tv : VpcInfo) :
    (tagIterRecord s tagName tag tv).status = tv.status := by
  unfold tagIterRecord
  rw [getCompleteVpc_status, tagStep_status, ttlStep_status]

theorem tagIterRecord_ttl_of_unparsable (s : Ec2Session) (tagName : String) {tag : Tag}
    (tv : VpcInfo) (h : equalFold tag.key "ttl" = true → atoi tag.value = none) :
    (tagIterRecord s tagName tag tv).ttl = tv.ttl := by
  unfold tagIterRecord
  rw [getCompleteVpc_ttl, tagStep_ttl, ttlStep_eq_of_unparsable tv h]

theorem processTags_mem (s : Ec2Session) (tagName : String) :
    ∀ (tags : List Tag) (tv e : VpcInfo), e ∈ processTags s tagName tags tv →
      e.vpcId = tv.vpcId ∧ e.status = tv.status := by
  intro tags
  induction tags with
  | nil => intro tv e h; simp [processTags] at h
  | cons t rest ih =>
    intro tv e h
    rw [processTags] at h
    by_cases hc : t.key = tagName ∧ t.key = ""
    · rw [if_pos hc] at h
      have hrec := ih _ e h
      exact ⟨hrec.1.trans (ttlStep_vpcId t tv), hrec.2.trans (ttlStep_status t tv)⟩
    · rw [if_neg hc] at h
      rcases List.mem_cons.mp h with rfl | hmem
      · exact ⟨tagIterRecord_vpcId s tagName t tv, tagIterRecord_status s tagName t tv⟩
      · have hrec := ih _ e hmem
        exact ⟨hrec.1.trans (tagIterRecord_vpcId s tagName t tv),
               hrec.2.trans (tagIterRecord_status s tagName t tv)⟩

theorem processTags_length (s : Ec2Session) {tagName : String} (hne : tagName ≠ "") :
    ∀ (tags : List Tag) (tv : VpcInfo),
      (processTags s tagName tags tv).length = tags.length := by
  intro tags
  induction tags with
  | nil => intro tv; simp [processTags]
  | cons t rest ih =>
    intro tv
    have hc : ¬(t.key = tagName ∧ t.key = "") := by
      rintro ⟨h1, h2⟩
      exact hne (by rw [← h1, h2])
    rw [processTags, if_neg hc, List.length_cons, ih, List.length_cons]

theorem processTags_ttl (s : Ec2Session) (tagName : String) :
    ∀ (tags : List Tag) (tv e : VpcInfo),
      (∀ t ∈ tags, equalFold t.key "ttl" = true → atoi t.value = none) →
      e ∈ processTags s tagName tags tv → e.ttl = tv.ttl := by
  intro tags
  induction tags with
  | nil => intro tv e _ h; simp [processTags] at h
  | cons t rest ih =>
    intro tv e hts h
    have ht : equalFold t.key "ttl" = true → atoi t.value = none :=
      hts t (List.mem_cons_self t rest)
    have hrest : ∀ u ∈ rest, equalFold u.key "ttl" = true → atoi u.value = none :=
      fun u hu => hts u (List.mem_cons_of_mem t hu)
    rw [processTags] at h
    by_cases hc : t.key = tagName ∧ t.key = ""
    · rw [if_pos hc] at h
      have hrec := ih _ e hrest h
      rw [hrec, ttlStep_eq_of_unparsable tv ht]
    · rw [if_neg hc] at h
      rcases List.mem_cons.mp h with rfl | hmem
      · exact tagIterRecord_ttl_of_unparsable s tagName tv ht
      · have hrec := ih _ e hrest hmem
        rw [hrec, tagIterRecord_ttl_of_unparsable s tagName tv ht]

theorem mem_vpcEntries {s : Ec2Session} {tagName : String} {vpc : Ec2Vpc} {e : VpcInfo}
    (h : e ∈ vpcEntries s tagName vpc) :
    vpc.state = "available" ∧ vpc.tags ≠ [] ∧ e.vpcId = vpc.vpcId ∧ e.status = vpc.state := by
  unfold vpcEntries at h
  by_cases h1 : vpc.state ≠ "available"
  · rw [if_pos h1] at h
    simp at h
  · rw [if_neg h1] at h
    by_cases h2 : vpc.tags = []
    · rw [if_pos h2] at h
      simp at h
    · rw [if_neg h2] at h
      have hrec := processTags_mem s tagName vpc.tags _ e h
      exact ⟨not_not.mp h1, h2, hrec.1, hrec.2⟩

theorem vpcEntries_length {s : Ec2Session} {tagName : String} {vpc : Ec2Vpc}
    (hne : tagName ≠ "") (hst : vpc.state = "available") (htg : vpc.tags ≠ []) :
    (vpcEntries s tagName vpc).length = vpc.tags.length := by
  unfold vpcEntries
  rw [if_neg (not_not_intro hst), if_neg htg, processTags_length s hne]

theorem vpcEntries_ttl {s : Ec2Session} {tagName : String} {vpc : Ec2Vpc} {e : VpcInfo}
    (hts : ∀ t ∈ vpc.tags, equalFold t.key "ttl" = true → atoi t.value = none)
    (h : e ∈ vpcEntries s tagName vpc) : e.ttl = 0 := by
  unfold vpcEntries at h
  by_cases h1 : vpc.state ≠ "available"
  · rw [if_pos h1] at h
    simp at h
  · rw [if_neg h1] at h
    by_cases h2 : vpc.tags = []
    · rw [if_pos h2] at h
      simp at h
    · rw [if_neg h2] at h
      exact processTags_ttl s tagName vpc.tags _ e hts h

theorem deleteVPC_live_cons (v0 : VpcInfo) (rest : List VpcInfo) :
    deleteVPC (v0 :: rest) false =
      (v0 :: rest).flatMap vpcSegment ++ [DelCall.vpc v0.vpcId] := rfl

theorem vpc_call_mem_vpcSegment (v : VpcInfo) : DelCall.vpc v.vpcId ∈ vpcSegment v := by
  unfold vpcSegment
  simp

theorem vpc_call_mem_deleteVPC {l : List VpcInfo} {v : VpcInfo} (h : v ∈ l) :
    DelCall.vpc v.vpcId ∈ deleteVPC l false := by
  cases l with
  | nil => cases h
  | cons v0 rest =>
    rw [deleteVPC_live_cons]
    exact List.mem_append_left _ (List.mem_flatMap.mpr ⟨v, h, vpc_call_mem_vpcSegment v⟩)

theorem lbTagEntries_eq_nil {tagName : String} (h : atoi tagName = none)
    (lb : ElasticLoadBalancer) (tags : List Tag) :
    lbTagEntries tagName lb tags = [] := by
  unfold lbTagEntries
  apply flatMap_nil_of
  intro t _
  by_cases hv : t.value = tagName
  · rw [if_pos hv, hv, h]
  · rw [if_neg hv]

theorem rank_le_four (c : DelCall) : rank c ≤ 4 := by
  cases c <;> simp [rank]

theorem mem_vpcSegment_cases {v : VpcInfo} {c : DelCall} (h : c ∈ vpcSegment v) :
    (∃ i ∈ v.securityGroups, c = DelCall.sg i) ∨
    (∃ i ∈ v.internetGateways, c = DelCall.igw i) ∨
    (∃ i ∈ v.subnets, c = DelCall.subnet i) ∨
    (∃ i ∈ v.routeTables, c = DelCall.rtb i) ∨
    c = DelCall.vpc v.vpcId := by
  simp only [vpcSegment, DeleteSecurityGroupsByIds, DeleteInternetGatewaysByIds,
    DeleteSubnetsByIds, DeleteRouteTablesByIds, List.mem_append, List.mem_map,
    List.mem_singleton] at h
  rcases h with ⟨i, hi, rfl⟩ | ⟨i, hi, rfl⟩ | ⟨i, hi, rfl⟩ | ⟨i, hi, rfl⟩ | rfl
  · exact Or.inl ⟨i, hi, rfl⟩
  · exact Or.inr (Or.inl ⟨i, hi, rfl⟩)
  · exact Or.inr (Or.inr (Or.inl ⟨i, hi, rfl⟩))
  · exact Or.inr (Or.inr (Or.inr (Or.inl ⟨i, hi, rfl⟩)))
  · exact Or.inr (Or.inr (Or.inr (Or.inr rfl)))

theorem filter_vpcSegment_self (v : VpcInfo) :
    (vpcSegment v).filter (belongsTo v) = vpcSegment v := by
  rw [List.filter_eq_self]
  intro c hc
  rcases mem_vpcSegment_cases hc with ⟨i, hi, rfl⟩ | ⟨i, hi, rfl⟩ | ⟨i, hi, rfl⟩ |
    ⟨i, hi, rfl⟩ | rfl
  · simp [belongsTo, hi]
  · simp [belongsTo, hi]
  · simp [belongsTo, hi]
  · simp [belongsTo, hi]
  · simp [belongsTo]

theorem filter_vpcSegment_of_disjoint {w v : VpcInfo} (h : DisjointFrom w v) :
    (vpcSegment w).filter (belongsTo v) = [] := by
  obtain ⟨h1, h2, h3, h4, h5⟩ := h
  rw [List.filter_eq_nil_iff]
  intro c hc
  rcases mem_vpcSegment_cases hc with ⟨i, hi, rfl⟩ | ⟨i, hi, rfl⟩ | ⟨i, hi, rfl⟩ |
    ⟨i, hi, rfl⟩ | rfl
  · simp [belongsTo]; exact h1 i hi
  · simp [belongsTo]; exact h2 i hi
  · simp [belongsTo]; exact h3 i hi
  · simp [belongsTo]; exact h4 i hi
  · simp [belongsTo]; exact h5

theorem pairwise_rank_of_const {l : List DelCall} {k : Nat} (h : ∀ a ∈ l, rank a = k) :
    l.Pairwise fun a b => rank a ≤ rank b := by
  induction l with
  | nil => exact List.Pairwise.nil
  | cons a l ih =>
    refine List.Pairwise.cons ?_ (ih fun b hb => h b (List.mem_cons_of_mem a hb))
    intro b hb
    rw [h a (List.mem_cons_self a l), h b (List.mem_cons_of_mem a hb)]

theorem pairwise_rank_append {l₁ l₂ : List DelCall} (k : Nat)
    (h₁ : ∀ a ∈ l₁, rank a ≤ k) (h₂ : ∀ b ∈ l₂, k ≤ rank b)
    (p₁ : l₁.Pairwise fun a b => rank a ≤ rank b)
    (p₂ : l₂.Pairwise fun a b => rank a ≤ rank b) :
    (l₁ ++ l₂).Pairwise fun a b => rank a ≤ rank b :=
  List.pairwise_append.mpr ⟨p₁, p₂, fun a ha b hb => (h₁ a ha).trans (h₂ b hb)⟩

theorem rank_of_mem_sg {c : DelCall} {l : List String}
    (h : c ∈ DeleteSecurityGroupsByIds l) : rank c = 0 := by
  simp only [DeleteSecurityGroupsByIds, List.mem_map] at h
  obtain ⟨i, _, rfl⟩ := h
  rfl

theorem rank_of_mem_igw {c : DelCall} {l : List String}
    (h : c ∈ DeleteInternetGatewaysByIds l) : rank c = 1 := by
  simp only [DeleteInternetGatewaysByIds, List.mem_map] at h
  obtain ⟨i, _, rfl⟩ := h
  rfl

theorem rank_of_mem_subnet {c : DelCall} {l : List String}
    (h : c ∈ DeleteSubnetsByIds l) : rank c = 2 := by
  simp only [DeleteSubnetsByIds, List.mem_map] at h
  obtain ⟨i, _, rfl⟩ := h
  rfl

theorem rank_of_mem_rtb {c : DelCall} {l : List String}
    (h : c ∈ DeleteRouteTablesByIds l) : rank c = 3 := by
  simp only [DeleteRouteTablesByIds, List.mem_map] at h
  obtain ⟨i, _, rfl⟩ := h
  rfl

theorem pairwise_rank_vpcSegment (v : VpcInfo) :
    (vpcSegment v).Pairwise fun a b => rank a ≤ rank b := by
  unfold vpcSegment
  apply pairwise_rank_append 0
  · intro a ha
    rw [rank_of_mem_sg ha]
  · intro b _
    exact Nat.zero_le _
  · exact pairwise_rank_of_const fun a ha => rank_of_mem_sg ha
  apply pairwise_rank_append 1
  · intro a ha
    rw [rank_of_mem_igw ha]
  · intro b hb
    rcases List.mem_append.mp hb with hb | hb
    · rw [rank_of_mem_subnet hb]
      omega
    rcases List.mem_append.mp hb with hb | hb
    · rw [rank_of_mem_rtb hb]
      omega
    · rw [List.mem_singleton.mp hb]
      simp [rank]
  · exact pairwise_rank_of_const fun a ha => rank_of_mem_igw ha
  apply pairwise_rank_append 2
  · intro a ha
    rw [rank_of_mem_subnet ha]
  · intro b hb
    rcases List.mem_append.mp hb with hb | hb
    · rw [rank_of_mem_rtb hb]
      omega
    · rw [List.mem_singleton.mp hb]
      simp [rank]
  · exact pairwise_rank_of_const fun a ha => rank_of_mem_subnet ha
  apply pairwise_rank_append 3
  · intro a ha
    rw [rank_of_mem_rtb ha]
  · intro b hb
    rw [List.mem_singleton.mp hb]
    simp [rank]
  · exact pairwise_rank_of_const fun a ha => rank_of_mem_rtb ha
  · exact pairwise_rank_of_const fun a ha => by rw [List.mem_singleton.mp ha]

theorem pairwise_rank_segment_extra (v : VpcInfo) (extra : List DelCall)
    (hx : ∀ a ∈ extra, rank a = 4) :
    (vpcSegment v ++ extra).Pairwise fun a b => rank a ≤ rank b := by
  apply pairwise_rank_append 4
  · intro a _
    exact rank_le_four a
  · intro b hb
    rw [hx b hb]
  · exact pairwise_rank_vpcSegment v
  · exact pairwise_rank_of_const hx

theorem filter_flatMap_nil {l : List VpcInfo} {v : VpcInfo}
    (h : ∀ w ∈ l, DisjointFrom w v) :
    (l.flatMap vpcSegment).filter (belongsTo v) = [] := by
  induction l with
  | nil => rfl
  | cons w l ih =>
    rw [List.flatMap_cons, List.filter_append,
        filter_vpcSegment_of_disjoint (h w (List.mem_cons_self w l)), List.nil_append]
    exact ih fun u hu => h u (List.mem_cons_of_mem w hu)

theorem filter_vpc_self (v : VpcInfo) :
    [DelCall.vpc v.vpcId].filter (belongsTo v) = [DelCall.vpc v.vpcId] := by
  simp [belongsTo]

theorem filter_vpc_ne {v : VpcInfo} {i : String} (h : i ≠ v.vpcId) :
    [DelCall.vpc i].filter (belongsTo v) = [] := by
  simp [belongsTo, h]

/-! ## Claims -/

/-- Claim C1 (code-bug evidence): with one discovered tagged container whose
decoded TTL (999999 seconds) has clearly not elapsed, DeleteExpiredVPC in
live mode nonetheless issues the container's provider delete call — the
VPC path never consults the Expiration Evaluator (VpcInfo does not even
record a creation time), contradicting the claim that deletion is
attempted only for expired resources. -/
theorem c1_vpc_deleted_without_expiry_check :
    CheckIfExpired 0 999999 3600 = false ∧
    DelCall.vpc "vpc-1" ∈ (DeleteExpiredVPC unexpiredVpcSession "ttl" false).1 := by
  decide

/-- Claim C2 (code-bug evidence): dry-run mode issues no delete call on this
input, but live mode issues the DeleteVpc call for the single tagged
container TWICE (once in the loop and once in the stray post-loop call on
VpcList[0]), contradicting "never more than one delete call per eligible
resource". -/
theorem c2_live_mode_double_delete :
    (DeleteExpiredVPC unexpiredVpcSession "ttl" true).1 = [] ∧
    (DeleteExpiredVPC unexpiredVpcSession "ttl" false).1.count (DelCall.vpc "vpc-1") = 2 := by
  decide

/-- Claim C3 (code-bug evidence): when the container listing fails with a
communication error, getVPCs swallows the error and returns the empty
list, and DeleteExpiredVPC returns success with no delete calls — the
pass reaches exactly the false "nothing to delete" conclusion the spec
forbids, instead of propagating the error. -/
theorem c3_vpc_listing_error_swallowed :
    getVPCs listFailureSession "ttl" = [] ∧
    DeleteExpiredVPC listFailureSession "ttl" false = ([], Except.ok ()) :=
  ⟨rfl, rfl⟩

/-- Claim C4: for every container that reaches the deletion step (any
decomposition of deleteVPC's input list around the container, with the
other members disjoint from it), the delete calls attributed to that
container appear in nondecreasing category rank: all security groups,
then all internet gateways, then all subnets, then all route tables, then
the container's own delete call(s); and the container's delete call is
issued. -/
theorem c4_deletion_order (vpcList : List VpcInfo) (v : VpcInfo) (l₁ l₂ : List VpcInfo)
    (hsplit : vpcList = l₁ ++ v :: l₂)
    (hdisj : ∀ w ∈ l₁ ++ l₂, DisjointFrom w v) :
    DelCall.vpc v.vpcId ∈ deleteVPC vpcList false ∧
    ((deleteVPC vpcList false).filter (belongsTo v)).Pairwise
      fun a b => rank a ≤ rank b := by
  subst hsplit
  have hvmem : v ∈ l₁ ++ v :: l₂ := List.mem_append_right _ (List.mem_cons_self v l₂)
  refine ⟨vpc_call_mem_deleteVPC hvmem, ?_⟩
  cases l₁ with
  | nil =>
    have hd₂ : ∀ w ∈ l₂, DisjointFrom w v := fun u hu => hdisj u (by simpa using hu)
    rw [List.nil_append, deleteVPC_live_cons, List.filter_append, List.flatMap_cons,
        List.filter_append, filter_vpcSegment_self, filter_flatMap_nil hd₂,
        List.append_nil, filter_vpc_self]
    exact pairwise_rank_segment_extra v [DelCall.vpc v.vpcId]
      fun a ha => by rw [List.mem_singleton.mp ha]; rfl
  | cons w0 l₁front =>
    have hd : ∀ w ∈ w0 :: l₁front, DisjointFrom w v :=
      fun u hu => hdisj u (List.mem_append_left _ hu)
    have hd₂ : ∀ w ∈ l₂, DisjointFrom w v :=
      fun u hu => hdisj u (List.mem_append_right _ hu)
    have hw0 : w0.vpcId ≠ v.vpcId := (hd w0 (List.mem_cons_self w0 l₁front)).2.2.2.2
    rw [List.cons_append, deleteVPC_live_cons, List.filter_append, filter_vpc_ne hw0,
        List.append_nil, List.flatMap_cons, List.filter_append,
        filter_vpcSegment_of_disjoint (hd w0 (List.mem_cons_self w0 l₁front)),
        List.nil_append, List.flatMap_append, List.filter_append,
        filter_flatMap_nil (fun u hu => hd u (List.mem_cons_of_mem w0 hu)),
        List.nil_append, List.flatMap_cons, List.filter_append, filter_vpcSegment_self,
        filter_flatMap_nil hd₂, List.append_nil]
    exact pairwise_rank_vpcSegment v

/-- Witness for C4 at a concrete one-container list with members in every
category. -/
theorem c4_deletion_order_witness :
    DelCall.vpc "vpc-4" ∈ deleteVPC [vFull] false ∧
    ((deleteVPC [vFull] false).filter (belongsTo vFull)).Pairwise
      fun a b => rank a ≤ rank b :=
  c4_deletion_order [vFull] vFull [] [] rfl fun w hw => by simp at hw

/-- Claim C5 (counterexample): a VPC whose ttl tag value "abc" fails integer
parsing is NOT excluded from the pass — it still appears in the
listTaggedVPC result and its delete call is still issued in live mode,
refuting "the affected resource is excluded from expiration consideration
... no deletion attempted on it". -/
theorem c5_counterexample :
    atoi "abc" = none ∧
    (listTaggedVPC badTtlVpcSession "ttl").1.map VpcInfo.vpcId = ["vpc-5"] ∧
    DelCall.vpc "vpc-5" ∈ (DeleteExpiredVPC badTtlVpcSession "ttl" false).1 := by
  decide

/-- Claim C5 as amended: an unparsable TTL tag value excludes a LOAD
BALANCER from the pass (with a listing that succeeded, the tagged list is
empty, since a tag only matches when its value equals the searched name);
for a VPC the parse failure is only logged — the record keeps TTL 0, is
still included, and its container delete call is still issued in live
mode; in neither family is the failure fatal to the pass (listTaggedVPC
reports no error). -/
theorem c5_amended_data_quality :
    (∀ (s : ElbSession) (tagName : String) (ds : List LbDesc),
        atoi tagName = none → s.describeLoadBalancers = .ok ds →
        listTaggedLoadBalancers s tagName = .ok []) ∧
    (∀ (s : Ec2Session) (tagName : String) (vpc : Ec2Vpc),
        tagName ≠ "" → vpc ∈ getVPCs s tagName → vpc.state = "available" →
        vpc.tags ≠ [] →
        (∀ t ∈ vpc.tags, equalFold t.key "ttl" = true → atoi t.value = none) →
        ∃ e ∈ (listTaggedVPC s tagName).1, e.vpcId = vpc.vpcId ∧ e.ttl = 0 ∧
          DelCall.vpc e.vpcId ∈ (DeleteExpiredVPC s tagName false).1) ∧
    (∀ (s : Ec2Session) (tagName : String), (listTaggedVPC s tagName).2 = none) := by
  refine ⟨?_, ?_, ?_⟩
  · intro s tagName ds h hds
    have hlist : ListLoadBalancers s = .ok (ds.map lbOfDesc) := by
      unfold ListLoadBalancers
      rw [hds]
    unfold listTaggedLoadBalancers
    rw [hlist]
    show Except.ok ((ds.map lbOfDesc).flatMap fun lb =>
        match s.describeTags lb.arn with
        | .error _ => []
        | .ok tags => lbTagEntries tagName lb tags) =
      Except.ok ([] : List ElasticLoadBalancer)
    refine congrArg Except.ok (flatMap_nil_of ?_)
    intro lb _
    cases hdt : s.describeTags lb.arn with
    | error e => rfl
    | ok tags => exact lbTagEntries_eq_nil h lb tags
  · intro s tagName vpc hne hmem hst htg hts
    have hlen : (vpcEntries s tagName vpc).length = vpc.tags.length :=
      vpcEntries_length hne hst htg
    have hnonempty : vpcEntries s tagName vpc ≠ [] := by
      intro h0
      rw [h0] at hlen
      exact htg (List.length_eq_zero.mp hlen.symm)
    obtain ⟨e, he⟩ := List.exists_mem_of_ne_nil _ hnonempty
    have heL : e ∈ (listTaggedVPC s tagName).1 := List.mem_flatMap.mpr ⟨vpc, hmem, he⟩
    refine ⟨e, heL, (mem_vpcEntries he).2.2.1, vpcEntries_ttl hts he, ?_⟩
    exact vpc_call_mem_deleteVPC heL
  · intro s tagName
    rfl

/-- Witness for the amended C5 at concrete sessions: an unparsable tag name
for the load-balancer half, the "abc"-TTL VPC for the container half, and
the failing listing for the never-fatal half. -/
theorem c5_amended_witness :
    listTaggedLoadBalancers elbFailSession "abc" = Except.ok [] ∧
    (∃ e ∈ (listTaggedVPC badTtlVpcSession "ttl").1, e.vpcId = badTtlVpc.vpcId ∧
      e.ttl = 0 ∧ DelCall.vpc e.vpcId ∈ (DeleteExpiredVPC badTtlVpcSession "ttl" false).1) ∧
    (listTaggedVPC listFailureSession "ttl").2 = none :=
  ⟨c5_amended_data_quality.1 elbFailSession "abc" [] (by decide) rfl,
   c5_amended_data_quality.2.1 badTtlVpcSession "ttl" badTtlVpc (by decide) (by decide)
     rfl (by decide) (by decide),
   c5_amended_data_quality.2.2 listFailureSession "ttl"⟩

/-- Claim C6 (counterexample): in a two-member load-balancer batch where the
first delete call fails, the second member receives NO delete attempt —
the loop returns on the first error — refuting "a failure deleting one
member of a batch does not prevent deletion attempts on the remaining
members". -/
theorem c6_counterexample :
    deleteLoadBalancers elbFailSession [lbA, lbB] false = (["arn-a"], Except.error "boom") ∧
    "arn-b" ∉ (deleteLoadBalancers elbFailSession [lbA, lbB] false).1 := by
  refine ⟨rfl, by decide⟩

/-- Claim C6 as amended: a load-balancer delete failure ends that batch call
immediately — the failing member's call is issued, the error is returned
(the outer pass logs it and moves on) and no later member of that call is
attempted; for containers the loop ignores per-container delete errors,
so every container in the list gets its delete call issued in live
mode. -/
theorem c6_amended_batch_failures :
    (∀ (s : ElbSession) (lb : ElasticLoadBalancer) (rest : List ElasticLoadBalancer)
        (e : String), s.deleteLoadBalancer lb.arn = .error e →
        deleteLoadBalancers s (lb :: rest) false = ([lb.arn], .error e)) ∧
    (∀ (vpcList : List VpcInfo) (v : VpcInfo), v ∈ vpcList →
        DelCall.vpc v.vpcId ∈ deleteVPC vpcList false) := by
  constructor
  · intro s lb rest e h
    show deleteLoadBalancersLoop s (lb :: rest) = ([lb.arn], Except.error e)
    simp only [deleteLoadBalancersLoop]
    rw [h]
  · intro vpcList v hv
    exact vpc_call_mem_deleteVPC hv

/-- Witness for the amended C6 at concrete inputs. -/
theorem c6_amended_witness :
    deleteLoadBalancers elbFailCSession [lbC] false = (["arn-c"], Except.error "down") ∧
    DelCall.vpc "vpc-6" ∈ deleteVPC [vBare] false :=
  ⟨c6_amended_batch_failures.1 elbFailCSession lbC [] "down" rfl,
   c6_amended_batch_failures.2 [vBare] vBare (by decide)⟩

/-- Claim C7: every record in the listTaggedVPC result carries status
"available" and stems from a discovered VPC whose state is exactly
"available" and which carries at least one tag — a container failing
either condition contributes nothing to the pass. -/
theorem c7_readiness_filter (s : Ec2Session) (tagName : String) (e : VpcInfo)
    (h : e ∈ (listTaggedVPC s tagName).1) :
    e.status = "available" ∧
    ∃ vpc ∈ getVPCs s tagName, vpc.state = "available" ∧ vpc.tags ≠ [] ∧
      e.vpcId = vpc.vpcId := by
  have h' : e ∈ (getVPCs s tagName).flatMap (vpcEntries s tagName) := h
  obtain ⟨vpc, hv, he⟩ := List.mem_flatMap.mp h'
  obtain ⟨hst, htg, hid, hstat⟩ := mem_vpcEntries he
  exact ⟨hstat.trans hst, vpc, hv, hst, htg, hid⟩

/-- Witness for C7 at the marker-tag-only VPC fixture. -/
theorem c7_readiness_filter_witness :
    noTtlEntry.status = "available" ∧
    ∃ vpc ∈ getVPCs noTtlVpcSession "env", vpc.state = "available" ∧ vpc.tags ≠ [] ∧
      noTtlEntry.vpcId = vpc.vpcId :=
  c7_readiness_filter noTtlVpcSession "env" noTtlEntry (by decide)

/-- Claim C8 (spec-modelled Expiration Evaluator): pure in (createdAt, ttl,
now); false whenever ttl < 0; for ttl ≥ 0 true iff now ≥ createdAt + ttl,
with the boundary inclusive. -/
theorem c8_expiration_evaluator (createdAt ttl now : Int) :
    (ttl < 0 → CheckIfExpired createdAt ttl now = false) ∧
    (0 ≤ ttl → (CheckIfExpired createdAt ttl now = true ↔ createdAt + ttl ≤ now)) ∧
    (0 ≤ ttl → CheckIfExpired createdAt ttl (createdAt + ttl - 1) = false) ∧
    (0 ≤ ttl → CheckIfExpired createdAt ttl (createdAt + ttl) = true) := by
  refine ⟨fun h => ?_, fun h => ?_, fun h => ?_, fun h => ?_⟩
  · simp [CheckIfExpired, h]
  · simp [CheckIfExpired, not_lt.mpr h]
  · simp only [CheckIfExpired, if_neg (not_lt.mpr h), decide_eq_false_iff_not]
    omega
  · simp [CheckIfExpired, not_lt.mpr h]

/-- Witness for C8 at concrete times. -/
theorem c8_expiration_evaluator_witness :
    CheckIfExpired 100 (-1) 1000000 = false ∧
    (CheckIfExpired 100 50 200 = true ↔ (100 : Int) + 50 ≤ 200) ∧
    CheckIfExpired 100 50 (100 + 50 - 1) = false ∧
    CheckIfExpired 100 50 (100 + 50) = true :=
  ⟨(c8_expiration_evaluator 100 (-1) 1000000).1 (by decide),
   (c8_expiration_evaluator 100 50 200).2.1 (by decide),
   (c8_expiration_evaluator 100 50 200).2.2.1 (by decide),
   (c8_expiration_evaluator 100 50 200).2.2.2 (by decide)⟩

/-- Claim C9 (counterexample): a VpcInfo record discovered with no ttl tag
at all holds TTL 0 — the Go zero value — not the sentinel -1 the claim
asserts. -/
theorem c9_counterexample :
    (listTaggedVPC noTtlVpcSession "env").1 = [noTtlEntry] ∧
    noTtlEntry.ttl = 0 ∧ (0 : Int) ≠ -1 :=
  ⟨rfl, rfl, by decide⟩

/-- Claim C9 as amended: load-balancer records are constructed with the TTL
sentinel -1 when no TTL was decoded, but VpcInfo records default to the
Go zero value 0 when no ttl tag value parses. -/
theorem c9_amended_ttl_defaults :
    (∀ (s : ElbSession) (l : List ElasticLoadBalancer),
        ListLoadBalancers s = .ok l → ∀ lb ∈ l, lb.ttl = -1) ∧
    (∀ (s : Ec2Session) (tagName : String) (vpc : Ec2Vpc) (e : VpcInfo),
        (∀ t ∈ vpc.tags, equalFold t.key "ttl" = true → atoi t.value = none) →
        e ∈ vpcEntries s tagName vpc → e.ttl = 0) := by
  constructor
  · intro s l hl lb hmem
    unfold ListLoadBalancers at hl
    cases hds : s.describeLoadBalancers with
    | error e =>
      rw [hds] at hl
      exact Except.noConfusion hl
    | ok ds =>
      rw [hds] at hl
      have hl' : Except.ok (ε := String) (ds.map lbOfDesc) = Except.ok l := hl
      injection hl' with hmap
      rw [← hmap] at hmem
      obtain ⟨d, _, rfl⟩ := List.mem_map.mp hmem
      rfl
  · intro s tagName vpc e hts he
    exact vpcEntries_ttl hts he

/-- Witness for the amended C9 at concrete fixtures. -/
theorem c9_amended_witness :
    (∀ lb ∈ [lbOfDesc lbDescW], lb.ttl = -1) ∧ noTtlEntry.ttl = 0 :=
  ⟨c9_amended_ttl_defaults.1 elbOkSession [lbOfDesc lbDescW] rfl,
   c9_amended_ttl_defaults.2 noTtlVpcSession "env" noTtlVpc noTtlEntry (by decide)
     (by decide)⟩

/-- Claim C10 (counterexample): a VPC passing the readiness filter (state
"available", one tag) for which the returned list holds ZERO entries, not
one — possible because a tag whose key equals the searched tag name and
is empty is skipped before the append. -/
theorem c10_counterexample :
    emptyKeyVpc ∈ getVPCs emptyKeyVpcSession "" ∧
    emptyKeyVpc.state = "available" ∧
    emptyKeyVpc.tags.length = 1 ∧
    (listTaggedVPC emptyKeyVpcSession "").1 = [] := by
  decide

/-- Claim C10 as amended: whenever the searched tag name is non-empty (so
no tag can hit the empty-key skip), a VPC passing the readiness filter
with N tags contributes exactly N entries bearing its identity to the
returned list (other discovered VPCs having distinct ids). -/
theorem c10_amended_entries_per_tag (s : Ec2Session) (tagName : String) (vpc : Ec2Vpc)
    (l₁ l₂ : List Ec2Vpc) (hne : tagName ≠ "")
    (hsplit : getVPCs s tagName = l₁ ++ vpc :: l₂)
    (hid : ∀ w ∈ l₁ ++ l₂, w.vpcId ≠ vpc.vpcId)
    (hst : vpc.state = "available") (htg : vpc.tags ≠ []) :
    ((listTaggedVPC s tagName).1.filter fun e => e.vpcId == vpc.vpcId).length =
      vpc.tags.length := by
  have h1 : (listTaggedVPC s tagName).1 = (l₁ ++ vpc :: l₂).flatMap (vpcEntries s tagName) := by
    show (getVPCs s tagName).flatMap (vpcEntries s tagName) = _
    rw [hsplit]
  have hfilterNil : ∀ (l : List Ec2Vpc), (∀ w ∈ l, w.vpcId ≠ vpc.vpcId) →
      ((l.flatMap (vpcEntries s tagName)).filter fun e => e.vpcId == vpc.vpcId) = [] := by
    intro l hl
    rw [List.filter_eq_nil_iff]
    intro e he
    obtain ⟨w, hw, hew⟩ := List.mem_flatMap.mp he
    have hid' : e.vpcId = w.vpcId := (mem_vpcEntries hew).2.2.1
    simp only [beq_iff_eq]
    rw [hid']
    exact hl w hw
  have hself : ((vpcEntries s tagName vpc).filter fun e => e.vpcId == vpc.vpcId) =
      vpcEntries s tagName vpc := by
    rw [List.filter_eq_self]
    intro e he
    exact beq_iff_eq.mpr (mem_vpcEntries he).2.2.1
  rw [h1, List.flatMap_append, List.flatMap_cons, List.filter_append, List.filter_append,
      hfilterNil l₁ (fun w hw => hid w (List.mem_append_left _ hw)),
      hfilterNil l₂ (fun w hw => hid w (List.mem_append_right _ hw)),
      List.nil_append, List.append_nil, hself]
  exact vpcEntries_length hne hst htg

/-- Witness for the amended C10: an available VPC with two tags yields
exactly two entries with its identity. -/
theorem c10_amended_witness :
    ((listTaggedVPC twoTagVpcSession "ttl").1.filter
      fun e => e.vpcId == twoTagVpc.vpcId).length = twoTagVpc.tags.length :=
  c10_amended_entries_per_tag twoTagVpcSession "ttl" twoTagVpc [] [] (by decide) rfl
    (fun w hw => by simp at hw) rfl (by decide)

end Pleco
